import Mathlib

/-!
Verification of the message/content translation engine of the
gemini-reverse proxy (an OpenAI-to-Gemini protocol translation gateway).

The definitions below are a shallow embedding of the TypeScript source:

* `src/types.ts` — the OpenAI-side data model and
  `mapGeminiFinishReasonToOpenAI`;
* `src/utils.ts` — `isGeminiImagePart`, `processGeminiResponseParts`,
  `uploadImageToBucket` (its response parsing), the
  `uploadImageToBucketWithFallback` wrapper, and `resolveRedirects`;
* `src/index.ts` — the request-translation loop building `geminiContents`,
  the mixed-content decision (`hasMixedContent` / `responseContent`), the
  YouTube URL test, and the `reasoning_effort` / thinking-budget mapping.

Effectful boundaries (network fetches, the bucket upload, the HTTP client
used by redirect resolution) are modelled as explicit oracle functions
passed as parameters; fallible code returns `Except`.
-/

/-! ## Data model: Gemini-side parts (the `Part` type of the target API)

A Gemini `Part` is a record of optional fields; the proxy uses `text`,
`inlineData` (a `Blob`) and `fileData` (a `FileData`).  All fields are
optional at runtime, so each is an `Option`.
-/

/-- Gemini `Blob`: inline binary data with a MIME type (both optional). -/
structure Blob where
  mimeType : Option String := none
  data : Option String := none
deriving DecidableEq, Repr

/-- Gemini `FileData`: a reference to a file by URI with a MIME type. -/
structure FileData where
  fileUri : Option String := none
  mimeType : Option String := none
deriving DecidableEq, Repr

/-- Gemini `Part`: a record of optional `text`, `inlineData`, `fileData`. -/
structure GemPart where
  text : Option String := none
  inlineData : Option Blob := none
  fileData : Option FileData := none
deriving DecidableEq, Repr

/-- Gemini `Content`: a role plus an ordered list of parts. -/
structure GemContent where
  role : String
  parts : List GemPart
deriving DecidableEq, Repr

/-! ## Data model: OpenAI-side content parts

`OpenAIContentPart` in `src/types.ts` is the union of text, image_url and
file_url parts.  The extra `other` constructor stands for a runtime part
whose `type` tag is none of the three recognized ones: the translator's
if/else-if chain falls through and ignores such a part.  On the response
side only `text` and `image_url` are ever produced.
-/

inductive OpenAIContentPart where
  | text (t : String)
  | image_url (url : String)
  | file_url (url : String)
  | other
deriving DecidableEq, Repr

/-- An OpenAI chat message: a role and either a plain string or parts. -/
structure OpenAIMessage where
  role : String
  content : Sum String (List OpenAIContentPart)
deriving DecidableEq, Repr

/-! ## Finish-reason normalization (`mapGeminiFinishReasonToOpenAI`)

The `FinishReason` enum of `@google/genai` is string-valued
(`'STOP'`, `'MAX_TOKENS'`, `'SAFETY'`, `'RECITATION'`, `'OTHER'`, ...),
so the mapper is embedded over `Option String`; `none` and the empty
string are the JavaScript-falsy inputs caught by `if (!reason)`.
-/

def mapGeminiFinishReasonToOpenAI (reason : Option String) : String :=
  match reason with
  | none => "stop"
  | some s =>
    if s = "" then "stop"
    else if s = "STOP" then "stop"
    else if s = "MAX_TOKENS" then "length"
    else if s = "SAFETY" then "content_filter"
    else if s = "RECITATION" then "stop"
    else "stop"

/-! ## `reasoning_effort` → thinking budget (`src/index.ts`)

`if (reasoning_effort) { ... geminiAPIConfig.thinkingConfig = {...} }`:
the config is set only when the field is present (and truthy); `none`
returned here means `thinkingConfig` is absent from the outbound config.
-/

def thinkingBudgetConfig (reasoningEffort : Option String) : Option Nat :=
  match reasoningEffort with
  | none => none
  | some s =>
    if s = "" then none
    else some (
      if s = "low" then 1000
      else if s = "medium" then 8000
      else if s = "high" then 24000
      else if s = "none" then 0
      else 0)

/-! ## Response side: image classification and mixed-content decision -/

/-- JavaScript `String.prototype.startsWith`, computed on character
lists (extensionally the same as `String.startsWith`, but reducible by
the kernel, so concrete instances can be settled by `decide`). -/
def startsWithStr (s pre : String) : Bool :=
  pre.data.isPrefixOf s.data

/-- `isGeminiImagePart` (`src/utils.ts`):
`part?.inlineData?.mimeType?.startsWith('image/') && part?.inlineData?.data`
— true iff `inlineData` is present, its MIME type is present and starts
with `image/`, and its `data` is present and non-empty (JS truthiness). -/
def isGeminiImagePart (p : GemPart) : Bool :=
  match p.inlineData with
  | none => false
  | some b =>
    match b.mimeType with
    | none => false
    | some m =>
      startsWithStr m "image/" &&
        (match b.data with
         | none => false
         | some d => d ≠ "")

/-- `hasMixedContent` (`src/index.ts`):
`candidate.content?.parts?.some((part) => isGeminiImagePart(part))`. -/
def hasMixedContent (parts : List GemPart) : Bool :=
  parts.any isGeminiImagePart

/-- The plain-text branch of `src/index.ts`:
`parts.map((part) => part.text).filter(Boolean).join('')` —
collect the `text` fields, drop missing and empty ones (JS `Boolean`
filter), and concatenate with no separator. -/
def textOnlyContent (parts : List GemPart) : String :=
  String.join ((((parts.map (fun p => p.text)).filterMap id).filter
    (fun s => s ≠ "")))

/-- `processGeminiResponseParts` (`src/utils.ts`): walk the parts; an
image part is uploaded (`uploadImageToBucketWithFallback`, modelled by
the `upload : data → mimeType → url` oracle, which never fails) and
becomes an `image_url` part; otherwise a part with (truthy) `text`
becomes a `text` part; anything else is dropped. -/
def processGeminiResponseParts (upload : String → String → String) :
    List GemPart → List OpenAIContentPart
  | [] => []
  | p :: rest =>
    if isGeminiImagePart p then
      OpenAIContentPart.image_url
          (upload ((p.inlineData.getD {}).data.getD "")
            ((p.inlineData.getD {}).mimeType.getD "")) ::
        processGeminiResponseParts upload rest
    else
      match p.text with
      | some t =>
        if t = "" then processGeminiResponseParts upload rest
        else OpenAIContentPart.text t :: processGeminiResponseParts upload rest
      | none => processGeminiResponseParts upload rest

/-- The `responseContent` decision of `src/index.ts`: mixed content
(some image part present) yields the processed part list, otherwise the
plain concatenated string. -/
def responseContent (upload : String → String → String)
    (parts : List GemPart) : Sum String (List OpenAIContentPart) :=
  if hasMixedContent parts then
    Sum.inr (processGeminiResponseParts upload parts)
  else
    Sum.inl (textOnlyContent parts)

/-! ## Asset publisher (`uploadImageToBucket` / `...WithFallback`)

The HTTP upload attempt is modelled by an `UploadOutcome`: the axios
call either throws without a response (network error), throws with a
response (non-success HTTP status), or succeeds with a response body.
The body is a `BucketBody`: a JSON object with the three fields the
parser inspects, a bare string, or anything else.
-/

inductive BucketBody where
  | obj (fileUrl : Option String) (success : Option Bool) (url : Option String)
  | str (s : String)
  | other
deriving DecidableEq, Repr

inductive UploadOutcome where
  | netError (msg : String)
  | httpError (status : Nat) (body : String)
  | success (body : BucketBody)
deriving DecidableEq, Repr

/-- JavaScript truthiness of an optional string field: present and
non-empty. -/
def jsTruthy (o : Option String) : Bool :=
  match o with
  | none => false
  | some s => s ≠ ""

/-- The response-shape parsing chain of `uploadImageToBucket`
(`src/utils.ts`): `{fileUrl}`, then `{success: true, url}`, then
`{url}`, then a bare string starting with `http`; anything else throws
(modelled as `Except.error`). -/
def parseBucketBody (body : BucketBody) : Except String String :=
  match body with
  | BucketBody.obj fileUrl success url =>
    if jsTruthy fileUrl then Except.ok (fileUrl.getD "")
    else if success = some true && jsTruthy url then Except.ok (url.getD "")
    else if jsTruthy url then Except.ok (url.getD "")
    else Except.error "Bucket server upload failed: Unknown response format"
  | BucketBody.str s =>
    if startsWithStr s "http" then Except.ok s
    else Except.error "Bucket server upload failed: Unknown response format"
  | BucketBody.other =>
    Except.error "Bucket server upload failed: Unknown response format"

/-- `uploadImageToBucket` over an abstract upload outcome: network and
HTTP errors are rethrown (as `Except.error`); a success response is
parsed against the tolerated shapes. -/
def uploadImageToBucket (outcome : UploadOutcome) : Except String String :=
  match outcome with
  | UploadOutcome.netError m => Except.error m
  | UploadOutcome.httpError _ body =>
    Except.error ("Failed to upload image to bucket: " ++ body)
  | UploadOutcome.success body => parseBucketBody body

/-- `uploadImageToBucketWithFallback` (`src/utils.ts`): wrap the upload
attempt; on any failure return the `data:` URL embedding the original
base64 payload tagged with the original MIME type.  Total: never fails
outward. -/
def uploadImageToBucketWithFallback (outcome : UploadOutcome)
    (base64Data mimeType : String) : String :=
  match uploadImageToBucket outcome with
  | Except.ok u => u
  | Except.error _ => "data:" ++ mimeType ++ ";base64," ++ base64Data

/-! ## The YouTube URL test (`src/index.ts`)

`YOUTUBE_URL_REGEX` is
`^(?:https?:\/\/)?(?:www\.)?(?:youtube\.com\/(?:watch\?v=|shorts\/|embed\/)|youtu\.be\/)([\w-]`
`{11})(?:[&?][^\s]*)?$` with the `i` flag.  The embedding lower-cases
the input (the literal alternatives are all lower case, and the
`[\w-]` / `[^\s]` character classes are stable under lower-casing) and
strips the alternatives left to right.  Each optional/alternative group
is deterministic here: no later group of the pattern can match a string
that begins with an unconsumed earlier literal, so greedy stripping is
equivalent to full regex backtracking.
-/

/-- Strip an expected literal, returning the remainder on a match. -/
def stripLit : List Char → List Char → Option (List Char)
  | [], cs => some cs
  | _ :: _, [] => none
  | p :: ps, c :: cs => if c = p then stripLit ps cs else none

/-- The `\w` class plus dash: `[A-Za-z0-9_-]` (after lower-casing). -/
def isWordDash (c : Char) : Bool :=
  c.isAlphanum || c = '_' || c = '-'

/-- The JavaScript `\s` class (ASCII part plus NBSP). -/
def isJsSpace (c : Char) : Bool :=
  c = ' ' || c = '\t' || c = '\n' || c = '\x0d' || c = '\x0b' ||
    c = '\x0c' || c = '\u00A0'

/-- `YOUTUBE_URL_REGEX.test(url)`: optional scheme, optional `www.`,
one of the four host/path alternatives, an 11-character `[\w-]` video
id, and an optional `[&?]`-introduced non-whitespace tail. -/
def youtubeUrlTest (url : String) : Bool :=
  let cs := url.data.map Char.toLower
  let cs1 :=
    match stripLit "https://".data cs with
    | some r => r
    | none =>
      match stripLit "http://".data cs with
      | some r => r
      | none => cs
  let cs2 :=
    match stripLit "www.".data cs1 with
    | some r => r
    | none => cs1
  let afterHost :=
    match stripLit "youtube.com/watch?v=".data cs2 with
    | some r => some r
    | none =>
      match stripLit "youtube.com/shorts/".data cs2 with
      | some r => some r
      | none =>
        match stripLit "youtube.com/embed/".data cs2 with
        | some r => some r
        | none => stripLit "youtu.be/".data cs2
  match afterHost with
  | none => false
  | some r =>
    let videoId := r.take 11
    let rest := r.drop 11
    decide (videoId.length = 11) && videoId.all isWordDash &&
      (match rest with
       | [] => true
       | c :: tail =>
         (c = '&' || c = '?') && tail.all (fun d => !(isJsSpace d)))

/-! ## Request translation (the `geminiContents` loop of `src/index.ts`)

The loop walks each non-system message, accumulating
`mediaPartsForGemini` and `textPartsForGemini` in source order, then
emits `media ++ text` as the block's parts — only when non-empty.  A
failed image/file fetch answers the client with a 400 error and returns
from the handler, so translation is an `Except`: the first failure
aborts the whole thing and no contents list is produced.

The two fetch helpers (`fetchImageAsBase64`, `fetchFileAsBase64`) are
effectful; they are modelled as oracles
`String → Except String FetchOk` (error = the thrown message).
-/

/-- Result of a successful fetch: base64 payload plus MIME type. -/
structure FetchOk where
  base64Data : String
  mimeType : String
deriving DecidableEq, Repr

/-- The abort raised by the catch blocks of the message loop: the
client-facing 400 error identifying the failing URL and the underlying
fetch failure message.  `imageAbort` comes from the `image_url` catch
(`Failed to process image from URL: <url>. <msg>`), `fileAbort` from
the `file_url` catch (`Failed to process file from URL: <url>. <msg>`). -/
inductive AbortError where
  | imageAbort (url msg : String)
  | fileAbort (url msg : String)
deriving DecidableEq, Repr

/-- A text part `{ text: t }`. -/
def mkTextPart (t : String) : GemPart := { text := some t }

/-- An inline-data part `{ inlineData: { data, mimeType } }`. -/
def mkInlinePart (r : FetchOk) : GemPart :=
  { inlineData := some { mimeType := some r.mimeType, data := some r.base64Data } }

/-- The YouTube file-reference part
`{ fileData: { fileUri: url, mimeType: 'video/*' } }`. -/
def mkVideoPart (url : String) : GemPart :=
  { fileData := some { fileUri := some url, mimeType := some "video/*" } }

/-- The inner part loop: build the pair
(`mediaPartsForGemini`, `textPartsForGemini`) in source order, aborting
on the first fetch failure.  `fetchImage` and `fetchFile` are the
oracles standing for `fetchImageAsBase64` / `fetchFileAsBase64`. -/
def collectParts (fetchImage fetchFile : String → Except String FetchOk) :
    List OpenAIContentPart → Except AbortError (List GemPart × List GemPart)
  | [] => Except.ok ([], [])
  | OpenAIContentPart.text t :: rest =>
    match collectParts fetchImage fetchFile rest with
    | Except.error e => Except.error e
    | Except.ok mts => Except.ok (mts.1, mkTextPart t :: mts.2)
  | OpenAIContentPart.image_url url :: rest =>
    match fetchImage url with
    | Except.error e => Except.error (AbortError.imageAbort url e)
    | Except.ok r =>
      match collectParts fetchImage fetchFile rest with
      | Except.error e => Except.error e
      | Except.ok mts => Except.ok (mkInlinePart r :: mts.1, mts.2)
  | OpenAIContentPart.file_url url :: rest =>
    if youtubeUrlTest url then
      match collectParts fetchImage fetchFile rest with
      | Except.error e => Except.error e
      | Except.ok mts => Except.ok (mkVideoPart url :: mts.1, mts.2)
    else
      match fetchFile url with
      | Except.error e => Except.error (AbortError.fileAbort url e)
      | Except.ok r =>
        match collectParts fetchImage fetchFile rest with
        | Except.error e => Except.error e
        | Except.ok mts => Except.ok (mkInlinePart r :: mts.1, mts.2)
  | OpenAIContentPart.other :: rest => collectParts fetchImage fetchFile rest

/-- End of one loop iteration: `currentGeminiParts = media ++ text`; a
block is pushed only when that list is non-empty, with role `model` for
`assistant` and `user` otherwise. -/
def assembleBlock (role : String) (mts : List GemPart × List GemPart) :
    Option GemContent :=
  let ps := mts.1 ++ mts.2
  if ps.isEmpty then none
  else some { role := if role = "assistant" then "model" else "user", parts := ps }

/-- Translation of a single (non-system) message: a string content
yields exactly one text part; a part-list content goes through
`collectParts`.  `Except.ok none` means the message produced no block. -/
def translateMessage (fetchImage fetchFile : String → Except String FetchOk)
    (msg : OpenAIMessage) : Except AbortError (Option GemContent) :=
  match msg.content with
  | Sum.inl s => Except.ok (assembleBlock msg.role ([], [mkTextPart s]))
  | Sum.inr l =>
    match collectParts fetchImage fetchFile l with
    | Except.error e => Except.error e
    | Except.ok mts => Except.ok (assembleBlock msg.role mts)

/-- The whole `geminiContents` loop: skip system messages, translate
the rest in order, abort on the first failure. -/
def geminiContentsOf (fetchImage fetchFile : String → Except String FetchOk) :
    List OpenAIMessage → Except AbortError (List GemContent)
  | [] => Except.ok []
  | msg :: rest =>
    if msg.role = "system" then geminiContentsOf fetchImage fetchFile rest
    else
      match translateMessage fetchImage fetchFile msg with
      | Except.error e => Except.error e
      | Except.ok none => geminiContentsOf fetchImage fetchFile rest
      | Except.ok (some c) =>
        match geminiContentsOf fetchImage fetchFile rest with
        | Except.error e => Except.error e
        | Except.ok cs => Except.ok (c :: cs)

/-- The first media-fetch failure encountered in traversal order within
one message's part list, if any (a specification-side projection of
`collectParts` used to state the fail-fast property). -/
def firstPartFailure (fetchImage fetchFile : String → Except String FetchOk) :
    List OpenAIContentPart → Option AbortError
  | [] => none
  | OpenAIContentPart.text _ :: rest => firstPartFailure fetchImage fetchFile rest
  | OpenAIContentPart.image_url url :: rest =>
    match fetchImage url with
    | Except.error e => some (AbortError.imageAbort url e)
    | Except.ok _ => firstPartFailure fetchImage fetchFile rest
  | OpenAIContentPart.file_url url :: rest =>
    if youtubeUrlTest url then firstPartFailure fetchImage fetchFile rest
    else
      match fetchFile url with
      | Except.error e => some (AbortError.fileAbort url e)
      | Except.ok _ => firstPartFailure fetchImage fetchFile rest
  | OpenAIContentPart.other :: rest => firstPartFailure fetchImage fetchFile rest

/-- The first media-fetch failure across the whole conversation, in
traversal order (system messages and string contents never fetch). -/
def firstFailure (fetchImage fetchFile : String → Except String FetchOk) :
    List OpenAIMessage → Option AbortError
  | [] => none
  | msg :: rest =>
    if msg.role = "system" then firstFailure fetchImage fetchFile rest
    else
      match msg.content with
      | Sum.inl _ => firstFailure fetchImage fetchFile rest
      | Sum.inr l =>
        match firstPartFailure fetchImage fetchFile l with
        | some e => some e
        | none => firstFailure fetchImage fetchFile rest

/-! ## Redirect resolution (`resolveRedirects`, `src/utils.ts`)

The HTTP request is modelled by an oracle
`net : url → method → NetResult`.  A `response` carries the status code
and the optional `Location` header (already resolved to an absolute
URL, as `new URL(location, url)` does); `connError` is the request
`error` event; `timeout` is the 5-second `setTimeout` firing.  The
`visitedUrls` set is a duplicate-free list.  The function mirrors the
source branch for branch: follow a 3xx with a `Location` while the
visited set holds at most 10 entries; accept a 2xx by answering the
current URL; on a 403/405 answered to a HEAD, delete the URL from the
visited set and retry with GET; everything else — 403/405 on GET, any
other status, a connection error, a timeout, a detected cycle, or an
exceeded hop cap — resolves to the current URL.  Total by construction:
the model never raises.
-/

inductive HttpMethod where
  | head
  | get
deriving DecidableEq, Repr

inductive NetResult where
  | response (status : Nat) (location : Option String)
  | connError (msg : String)
  | timeout
deriving DecidableEq, Repr

/-- Termination rank of the request method: a HEAD may still downgrade
to a GET once, a GET may not. -/
def methodRank : HttpMethod → Nat
  | HttpMethod.head => 1
  | HttpMethod.get => 0

def resolveRedirects (net : String → HttpMethod → NetResult)
    (url : String) (visitedUrls : List String) (method : HttpMethod) : String :=
  if url ∈ visitedUrls then url
  else
    match net url method with
    | NetResult.response st loc =>
      if h3xx : 300 ≤ st ∧ st < 400 ∧ loc.isSome then
        if hcap : (url :: visitedUrls).length > 10 then url
        else resolveRedirects net (loc.getD "") (url :: visitedUrls) method
      else if 200 ≤ st ∧ st < 300 then url
      else if hretry : (st = 405 ∨ st = 403) ∧ method = HttpMethod.head then
        resolveRedirects net url ((url :: visitedUrls).erase url) HttpMethod.get
      else url
    | NetResult.connError _ => url
    | NetResult.timeout => url
termination_by methodRank method + (20 - visitedUrls.length)
decreasing_by
  · simp only [List.length_cons] at hcap ⊢
    omega
  · simp only [List.erase_cons_head, hretry.2, methodRank]
    omega

/-! ## Helper lemmas -/

lemma join_cons (s : String) (l : List String) :
    String.join (s :: l) = s ++ String.join l := by
  simp [String.join_eq]
  cases s with
  | mk d => rfl

/-- `filter(Boolean).join('')` equals the plain concatenation of every
part's text with missing texts read as the empty string. -/
lemma textOnlyContent_eq (parts : List GemPart) :
    textOnlyContent parts = String.join (parts.map fun p => p.text.getD "") := by
  induction parts with
  | nil => rfl
  | cons p ps ih =>
    cases h : p.text with
    | none =>
      simp [textOnlyContent, List.filterMap_cons, h, join_cons,
        String.empty_append] at ih ⊢
      exact ih
    | some t =>
      by_cases ht : t = ""
      · subst ht
        simp [textOnlyContent, List.filterMap_cons, List.filter_cons, h,
          join_cons, String.empty_append] at ih ⊢
        exact ih
      · simp [textOnlyContent, List.filterMap_cons, List.filter_cons, h, ht,
          join_cons] at ih ⊢
        rw [ih]

/-- The response-part loop is an order-preserving `filterMap`. -/
lemma processParts_eq_filterMap (upload : String → String → String)
    (parts : List GemPart) :
    processGeminiResponseParts upload parts = parts.filterMap (fun p =>
      if isGeminiImagePart p then
        some (OpenAIContentPart.image_url
          (upload ((p.inlineData.getD {}).data.getD "")
            ((p.inlineData.getD {}).mimeType.getD "")))
      else
        match p.text with
        | some t => if t = "" then none else some (OpenAIContentPart.text t)
        | none => none) := by
  induction parts with
  | nil => rfl
  | cons p ps ih =>
    simp only [processGeminiResponseParts, List.filterMap_cons]
    by_cases hi : isGeminiImagePart p
    · simp [hi, ih]
    · simp only [hi, if_neg, Bool.false_eq_true, not_false_eq_true]
      cases h : p.text with
      | none => simp [hi, h, ih]
      | some t =>
        by_cases ht : t = ""
        · simp [hi, h, ht, ih]
        · simp [hi, h, ht, ih]

lemma hasMixedContent_false (parts : List GemPart)
    (h : ∀ p ∈ parts, isGeminiImagePart p = false) :
    hasMixedContent parts = false := by
  simp only [hasMixedContent, List.any_eq_false]
  intro p hp
  simp [h p hp]

/-! ## Claim theorems -/

/-- C2: when no response part is an image-bearing inline-data part, the
translated content is the plain string concatenating every part's text
in order with no separator (parts without text contribute nothing);
when at least one part is image-bearing, it is the order-preserving
list mapping image parts to `image_url` entries and text parts to
`text` entries. -/
theorem responseContent_plain_or_mixed :
  ∀ (upload : String → String → String) (parts : List GemPart),
    ((∀ p ∈ parts, isGeminiImagePart p = false) →
      responseContent upload parts =
        Sum.inl (String.join (parts.map fun p => p.text.getD ""))) ∧
    ((∃ p ∈ parts, isGeminiImagePart p = true) →
      responseContent upload parts =
        Sum.inr (parts.filterMap (fun p =>
          if isGeminiImagePart p then
            some (OpenAIContentPart.image_url
              (upload ((p.inlineData.getD {}).data.getD "")
                ((p.inlineData.getD {}).mimeType.getD "")))
          else
            match p.text with
            | some t => if t = "" then none else some (OpenAIContentPart.text t)
            | none => none))) := by
  intro upload parts
  constructor
  · intro h
    rw [responseContent, hasMixedContent_false parts h]
    simp [textOnlyContent_eq]
  · intro h
    have hm : hasMixedContent parts = true := by
      simp only [hasMixedContent, List.any_eq_true]
      obtain ⟨p, hp, hi⟩ := h
      exact ⟨p, hp, hi⟩
    rw [responseContent, hm]
    simp [processParts_eq_filterMap]

/-- A constant upload oracle used to instantiate claim theorems. -/
def uploadConstUrl : String → String → String :=
  fun _ _ => "http://bucket.example/generated-image.png"

/-- A response part carrying a PNG payload (`QUJD` is base64). -/
def pngImagePart : GemPart :=
  { inlineData := some { mimeType := some "image/png", data := some "QUJD" } }

/-- Witness for C2: the spec's own test case — `[{text:"hi"}]` yields
the plain string `"hi"`, and `[{text:"hi"}, {inlineData: png}]` yields
the two-element typed list in original order. -/
theorem responseContent_plain_or_mixed_witness :
  responseContent uploadConstUrl [{ text := some "hi" }] = Sum.inl "hi" ∧
  responseContent uploadConstUrl [{ text := some "hi" }, pngImagePart] =
    Sum.inr [OpenAIContentPart.text "hi",
      OpenAIContentPart.image_url (uploadConstUrl "QUJD" "image/png")] := by
  constructor
  · rw [(responseContent_plain_or_mixed uploadConstUrl
      [{ text := some "hi" }]).1 (by decide)]
    rfl
  · rw [(responseContent_plain_or_mixed uploadConstUrl
      [{ text := some "hi" }, pngImagePart]).2
      ⟨pngImagePart, by decide, by decide⟩]
    rfl

/-- The four tolerated bucket-response shapes of the specification:
`{fileUrl}`, `{success: true, url}`, `{url}`, or a bare string starting
with `http` (string fields read with JavaScript truthiness). -/
def toleratedShape : BucketBody → Bool
  | BucketBody.obj fileUrl success url =>
    jsTruthy fileUrl || (success = some true && jsTruthy url) || jsTruthy url
  | BucketBody.str s => startsWithStr s "http"
  | BucketBody.other => false

/-- The internal upload attempt succeeded. -/
def uploadSucceeds (o : UploadOutcome) : Prop :=
  ∃ u, uploadImageToBucket o = Except.ok u

/-- C4: the publish operation never surfaces a failure — whenever the
internal upload attempt fails (network error, non-success HTTP status,
or a success response in none of the four tolerated shapes), it returns
the `data:` URL embedding exactly the original base64 payload tagged
with the original MIME type. -/
theorem publish_fallback_data_url :
  (∀ (o : UploadOutcome) (base64Data mimeType e : String),
      uploadImageToBucket o = Except.error e →
      uploadImageToBucketWithFallback o base64Data mimeType =
        "data:" ++ mimeType ++ ";base64," ++ base64Data) ∧
  (∀ msg, ¬ uploadSucceeds (UploadOutcome.netError msg)) ∧
  (∀ st body, ¬ uploadSucceeds (UploadOutcome.httpError st body)) ∧
  (∀ b, uploadSucceeds (UploadOutcome.success b) ↔ toleratedShape b = true) := by
  refine ⟨?_, ?_, ?_, ?_⟩
  · intro o d m e h
    rw [uploadImageToBucketWithFallback, h]
  · intro msg ⟨u, h⟩
    simp [uploadImageToBucket] at h
  · intro st body ⟨u, h⟩
    simp [uploadImageToBucket] at h
  · intro b
    cases b with
    | obj fileUrl success url =>
      simp only [uploadSucceeds, uploadImageToBucket, parseBucketBody,
        toleratedShape]
      by_cases h1 : jsTruthy fileUrl
      · simp [h1]
      · by_cases h2 : success = some true && jsTruthy url
        · simp [h1, h2]
        · by_cases h3 : jsTruthy url
          · simp [h1, h2, h3]
          · simp [h1, h2, h3]
    | str s =>
      simp only [uploadSucceeds, uploadImageToBucket, parseBucketBody,
        toleratedShape]
      by_cases h : startsWithStr s "http" <;> simp [h]
    | other =>
      simp [uploadSucceeds, uploadImageToBucket, parseBucketBody, toleratedShape]

/-- Witness for C4: an unparseable upload response falls back to a data
URL containing the original payload, matching the spec's test. -/
theorem publish_fallback_data_url_witness :
  uploadImageToBucketWithFallback (UploadOutcome.success BucketBody.other)
      "AAAA" "image/png" =
    "data:" ++ "image/png" ++ ";base64," ++ "AAAA" :=
  publish_fallback_data_url.1 (UploadOutcome.success BucketBody.other)
    "AAAA" "image/png" "Bucket server upload failed: Unknown response format" rfl

/-- C5: the finish-reason normalizer maps STOP and RECITATION to
`stop`, MAX_TOKENS to `length`, SAFETY to `content_filter`, and any
absent or unrecognized reason to `stop` (hence it is idempotent on the
normalized vocabulary). -/
theorem finishReason_vocabulary :
  mapGeminiFinishReasonToOpenAI (some "STOP") = "stop" ∧
  mapGeminiFinishReasonToOpenAI (some "RECITATION") = "stop" ∧
  mapGeminiFinishReasonToOpenAI (some "MAX_TOKENS") = "length" ∧
  mapGeminiFinishReasonToOpenAI (some "SAFETY") = "content_filter" ∧
  mapGeminiFinishReasonToOpenAI none = "stop" ∧
  (∀ s : String, s ≠ "MAX_TOKENS" → s ≠ "SAFETY" →
    mapGeminiFinishReasonToOpenAI (some s) = "stop") := by
  refine ⟨rfl, rfl, rfl, rfl, rfl, ?_⟩
  intro s h1 h2
  show (if s = "" then "stop"
    else if s = "STOP" then "stop"
    else if s = "MAX_TOKENS" then "length"
    else if s = "SAFETY" then "content_filter"
    else if s = "RECITATION" then "stop"
    else "stop") = "stop"
  split_ifs <;> rfl

/-- Witness for C5: normalizing the already-normalized `stop` yields
`stop`. -/
theorem finishReason_vocabulary_witness :
  mapGeminiFinishReasonToOpenAI (some "stop") = "stop" :=
  finishReason_vocabulary.2.2.2.2.2 "stop" (by decide) (by decide)

/-- C7: `reasoning_effort` maps to the thinking budget by the fixed
table `none→0, low→1000, medium→8000, high→24000`, and an absent field
leaves the thinking configuration entirely unset (`none`, a value
distinct from `some 0`), so absence is distinguishable from an
explicit `none`. -/
theorem reasoningEffort_budget_table :
  thinkingBudgetConfig (some "none") = some 0 ∧
  thinkingBudgetConfig (some "low") = some 1000 ∧
  thinkingBudgetConfig (some "medium") = some 8000 ∧
  thinkingBudgetConfig (some "high") = some 24000 ∧
  thinkingBudgetConfig none = none :=
  ⟨rfl, rfl, rfl, rfl, rfl⟩

/-- C10: a part whose `inlineData` has an image MIME type but an empty
or missing `data` field is not classified as an image part, never
triggers the mixed-content mode, and (having no text) contributes
nothing to the plain-string output. -/
theorem emptyData_not_image :
  ∀ (p : GemPart) (b : Blob),
    p.inlineData = some b →
    startsWithStr (b.mimeType.getD "") "image/" = true →
    (b.data = none ∨ b.data = some "") →
    isGeminiImagePart p = false ∧
    (∀ ps1 ps2 : List GemPart,
      hasMixedContent (ps1 ++ p :: ps2) = hasMixedContent (ps1 ++ ps2)) ∧
    (p.text = none →
      ∀ ps1 ps2 : List GemPart,
        textOnlyContent (ps1 ++ p :: ps2) = textOnlyContent (ps1 ++ ps2)) := by
  intro p b hb hm hd
  have hni : isGeminiImagePart p = false := by
    simp only [isGeminiImagePart, hb]
    cases hmt : b.mimeType with
    | none => rfl
    | some m =>
      rcases hd with hd | hd <;> simp [hd]
  refine ⟨hni, ?_, ?_⟩
  · intro ps1 ps2
    simp [hasMixedContent, List.any_append, hni]
  · intro ht ps1 ps2
    simp [textOnlyContent, List.filterMap_append, List.filterMap_cons, ht]

/-- A response part with an image MIME type but an empty payload. -/
def emptyPngPart : GemPart :=
  { inlineData := some { mimeType := some "image/png", data := some "" } }

/-- Witness for C10: the empty-payload PNG part is not an image part
and is inert in both output modes. -/
theorem emptyData_not_image_witness :
  isGeminiImagePart emptyPngPart = false ∧
  (∀ ps1 ps2 : List GemPart,
    hasMixedContent (ps1 ++ emptyPngPart :: ps2) = hasMixedContent (ps1 ++ ps2)) ∧
  (emptyPngPart.text = none →
    ∀ ps1 ps2 : List GemPart,
      textOnlyContent (ps1 ++ emptyPngPart :: ps2) =
        textOnlyContent (ps1 ++ ps2)) :=
  emptyData_not_image emptyPngPart
    { mimeType := some "image/png", data := some "" } rfl (by decide)
    (Or.inr rfl)

/-- Every part accumulated by the media accumulator is a media part
(inline data or file reference, no text), and every part in the text
accumulator is a text part. -/
lemma collectParts_shape (fI fF : String → Except String FetchOk) :
    ∀ (ps : List OpenAIContentPart) (mts : List GemPart × List GemPart),
      collectParts fI fF ps = Except.ok mts →
      (∀ p ∈ mts.1, p.text = none ∧ (p.inlineData.isSome ∨ p.fileData.isSome)) ∧
      (∀ p ∈ mts.2, ∃ t, p = mkTextPart t) := by
  intro ps
  induction ps with
  | nil =>
    intro mts h
    simp only [collectParts, Except.ok.injEq] at h
    subst h
    simp
  | cons head rest ih =>
    intro mts h
    cases head with
    | text t =>
      cases hr : collectParts fI fF rest with
      | error e => simp [collectParts, hr] at h
      | ok mts' =>
        simp only [collectParts, hr, Except.ok.injEq] at h
        subst h
        obtain ⟨hm, ht⟩ := ih mts' hr
        refine ⟨hm, ?_⟩
        intro p hp
        rcases List.mem_cons.mp hp with rfl | hp
        · exact ⟨t, rfl⟩
        · exact ht p hp
    | image_url url =>
      cases hf : fI url with
      | error e => simp [collectParts, hf] at h
      | ok r =>
        cases hr : collectParts fI fF rest with
        | error e => simp [collectParts, hf, hr] at h
        | ok mts' =>
          simp only [collectParts, hf, hr, Except.ok.injEq] at h
          subst h
          obtain ⟨hm, ht⟩ := ih mts' hr
          refine ⟨?_, ht⟩
          intro p hp
          rcases List.mem_cons.mp hp with rfl | hp
          · simp [mkInlinePart]
          · exact hm p hp
    | file_url url =>
      by_cases hy : youtubeUrlTest url
      · cases hr : collectParts fI fF rest with
        | error e => simp [collectParts, hy, hr] at h
        | ok mts' =>
          simp only [collectParts, hy, if_pos, hr, Except.ok.injEq] at h
          subst h
          obtain ⟨hm, ht⟩ := ih mts' hr
          refine ⟨?_, ht⟩
          intro p hp
          rcases List.mem_cons.mp hp with rfl | hp
          · simp [mkVideoPart]
          · exact hm p hp
      · cases hf : fF url with
        | error e => simp [collectParts, hy, hf] at h
        | ok r =>
          cases hr : collectParts fI fF rest with
          | error e => simp [collectParts, hy, hf, hr] at h
          | ok mts' =>
            simp only [collectParts, hy, if_neg, hf, hr, Except.ok.injEq,
              Bool.false_eq_true, not_false_eq_true] at h
            subst h
            obtain ⟨hm, ht⟩ := ih mts' hr
            refine ⟨?_, ht⟩
            intro p hp
            rcases List.mem_cons.mp hp with rfl | hp
            · simp [mkInlinePart]
            · exact hm p hp
    | other =>
      exact ih mts (by simpa [collectParts] using h)

/-- A fetch oracle that answers every URL with a PNG payload (`QUJD`
is base64), used to instantiate claim theorems. -/
def fetchOkPng : String → Except String FetchOk :=
  fun _ => Except.ok { base64Data := "QUJD", mimeType := "image/png" }

/-- The spec test input: a message with parts `[text, image, text]`. -/
def interleavedMessage : OpenAIMessage :=
  { role := "user", content := Sum.inr [OpenAIContentPart.text "a",
      OpenAIContentPart.image_url "http://img.example/x.png",
      OpenAIContentPart.text "b"] }

/-- C1: every block emitted for a non-system message places all media
parts (inline data or file references) before all text parts,
regardless of their interleaving in the source message; in particular
`[text, image, text]` translates to `[image, text, text]`. -/
theorem ordering_media_before_text :
  (∀ (fetchImage fetchFile : String → Except String FetchOk)
      (msg : OpenAIMessage) (c : GemContent),
      msg.role ≠ "system" →
      translateMessage fetchImage fetchFile msg = Except.ok (some c) →
      ∃ ms ts, c.parts = ms ++ ts ∧
        (∀ p ∈ ms, p.text = none ∧ (p.inlineData.isSome ∨ p.fileData.isSome)) ∧
        (∀ p ∈ ts, ∃ t, p = mkTextPart t)) ∧
  translateMessage fetchOkPng fetchOkPng interleavedMessage =
    Except.ok (some { role := "user",
                      parts := [mkInlinePart { base64Data := "QUJD", mimeType := "image/png" },
                                mkTextPart "a", mkTextPart "b"] }) := by
  constructor
  · intro fI fF msg c _ h
    cases hc : msg.content with
    | inl s =>
      simp [translateMessage, hc, assembleBlock] at h
      refine ⟨[], [mkTextPart s], ?_, by simp, ?_⟩
      · rw [← h]
        rfl
      · intro p hp
        rcases List.mem_cons.mp hp with hp | hp
        · exact ⟨s, hp⟩
        · simp at hp
    | inr l =>
      cases hcp : collectParts fI fF l with
      | error e => simp [translateMessage, hc, hcp] at h
      | ok mts =>
        simp only [translateMessage, hc, hcp, Except.ok.injEq] at h
        obtain ⟨hm, ht⟩ := collectParts_shape fI fF l mts hcp
        refine ⟨mts.1, mts.2, ?_, hm, ht⟩
        simp only [assembleBlock] at h
        by_cases he : (mts.1 ++ mts.2).isEmpty
        · simp [he] at h
        · simp only [he, if_neg, Bool.false_eq_true, not_false_eq_true] at h
          rw [← Option.some.inj h]
  · rfl

/-- Witness for C1: the ordering invariant at the spec's interleaved
message. -/
theorem ordering_media_before_text_witness :
  interleavedMessage.role ≠ "system" ∧
  ∃ ms ts,
    ({ role := "user",
       parts := [mkInlinePart { base64Data := "QUJD", mimeType := "image/png" },
                 mkTextPart "a", mkTextPart "b"] } : GemContent).parts = ms ++ ts ∧
    (∀ p ∈ ms, p.text = none ∧ (p.inlineData.isSome ∨ p.fileData.isSome)) ∧
    (∀ p ∈ ts, ∃ t, p = mkTextPart t) :=
  ⟨by decide,
    ordering_media_before_text.1 fetchOkPng fetchOkPng interleavedMessage _
      (by decide) ordering_media_before_text.2⟩

/-- A part list of only unrecognized parts accumulates nothing. -/
lemma collectParts_others (fI fF : String → Except String FetchOk) :
    ∀ ps : List OpenAIContentPart,
      (∀ p ∈ ps, p = OpenAIContentPart.other) →
      collectParts fI fF ps = Except.ok ([], []) := by
  intro ps
  induction ps with
  | nil => intro _; rfl
  | cons head rest ih =>
    intro h
    have hh := h head (List.mem_cons_self _ _)
    subst hh
    simp only [collectParts]
    exact ih (fun p hp => h p (List.mem_cons_of_mem _ hp))

/-- C9: a non-system message whose part-list content produces no target
part (for instance an empty array, or only parts of unrecognized type)
emits no block at all, while a message whose content is the empty
string still emits a block with a single empty text part. -/
theorem empty_block_dropped :
  (∀ (fetchImage fetchFile : String → Except String FetchOk) (role : String)
      (ps : List OpenAIContentPart),
      (∀ p ∈ ps, p = OpenAIContentPart.other) →
      translateMessage fetchImage fetchFile
        { role := role, content := Sum.inr ps } = Except.ok none) ∧
  (∀ (fetchImage fetchFile : String → Except String FetchOk) (role : String),
      translateMessage fetchImage fetchFile
        { role := role, content := Sum.inl "" } =
      Except.ok (some { role := if role = "assistant" then "model" else "user",
                        parts := [mkTextPart ""] })) := by
  constructor
  · intro fI fF role ps h
    simp only [translateMessage, collectParts_others fI fF ps h]
    rfl
  · intro fI fF role
    rfl

/-- Witness for C9: the empty part array is dropped; the empty string
keeps its block. -/
theorem empty_block_dropped_witness :
  translateMessage fetchOkPng fetchOkPng
    { role := "user", content := Sum.inr [] } = Except.ok none ∧
  translateMessage fetchOkPng fetchOkPng
    { role := "user", content := Sum.inl "" } =
    Except.ok (some { role := "user", parts := [mkTextPart ""] }) :=
  ⟨empty_block_dropped.1 fetchOkPng fetchOkPng "user" [] (by decide),
    empty_block_dropped.2 fetchOkPng fetchOkPng "user"⟩

/-- C6: a `file_url` part whose URL matches the recognized
video-hosting pattern resolves — for every fetch oracle, hence with no
fetch performed — to a file-reference part carrying the original URL
verbatim and the wildcard MIME type `video/*`; the three spec URLs all
match the pattern. -/
theorem youtube_url_fileReference :
  (∀ (fetchImage fetchFile : String → Except String FetchOk) (url : String)
      (rest : List OpenAIContentPart),
      youtubeUrlTest url = true →
      collectParts fetchImage fetchFile
          (OpenAIContentPart.file_url url :: rest) =
        (collectParts fetchImage fetchFile rest).map
          (fun mts => (mkVideoPart url :: mts.1, mts.2))) ∧
  (∀ (fetchImage fetchFile : String → Except String FetchOk) (url : String),
      youtubeUrlTest url = true →
      translateMessage fetchImage fetchFile
          { role := "user", content := Sum.inr [OpenAIContentPart.file_url url] } =
        Except.ok (some { role := "user",
                          parts := [{ fileData := some { fileUri := some url,
                                                         mimeType := some "video/*" } }] })) ∧
  youtubeUrlTest "https://youtube.com/watch?v=dQw4w9WgXcQ" = true ∧
  youtubeUrlTest "https://youtu.be/dQw4w9WgXcQ" = true ∧
  youtubeUrlTest "https://www.youtube.com/shorts/dQw4w9WgXcQ" = true := by
  refine ⟨?_, ?_, by decide, by decide, by decide⟩
  · intro fI fF url rest hy
    simp only [collectParts, hy, if_pos]
    cases collectParts fI fF rest <;> simp [Except.map]
  · intro fI fF url hy
    simp [translateMessage, collectParts, hy, assembleBlock, mkVideoPart]

/-- Witness for C6: the short-link form translates to a file reference
without consulting the fetcher. -/
theorem youtube_url_fileReference_witness :
  translateMessage fetchOkPng fetchOkPng
      { role := "user",
        content := Sum.inr [OpenAIContentPart.file_url
          "https://youtu.be/dQw4w9WgXcQ"] } =
    Except.ok (some { role := "user",
                      parts := [{ fileData := some { fileUri := some "https://youtu.be/dQw4w9WgXcQ",
                                                     mimeType := some "video/*" } }] }) :=
  youtube_url_fileReference.2.1 fetchOkPng fetchOkPng
    "https://youtu.be/dQw4w9WgXcQ" youtube_url_fileReference.2.2.2.1

/-- The abort error is consistent with the oracles: it names a URL whose
fetch really failed with the reported message (and, for a file part,
one that is not a recognized video link). -/
def abortConsistent (fI fF : String → Except String FetchOk) : AbortError → Prop
  | AbortError.imageAbort u m => fI u = Except.error m
  | AbortError.fileAbort u m => fF u = Except.error m ∧ youtubeUrlTest u = false

/-- If a part list contains a failing media part, the part loop aborts
with exactly the first such failure. -/
lemma firstPartFailure_some (fI fF : String → Except String FetchOk) :
    ∀ (ps : List OpenAIContentPart) (e : AbortError),
      firstPartFailure fI fF ps = some e →
      collectParts fI fF ps = Except.error e ∧ abortConsistent fI fF e := by
  intro ps
  induction ps with
  | nil => intro e h; simp [firstPartFailure] at h
  | cons head rest ih =>
    intro e h
    cases head with
    | text t =>
      simp only [firstPartFailure] at h
      obtain ⟨hc, ha⟩ := ih e h
      exact ⟨by simp [collectParts, hc], ha⟩
    | image_url url =>
      cases hf : fI url with
      | error m =>
        simp only [firstPartFailure, hf, Option.some.injEq] at h
        subst h
        exact ⟨by simp [collectParts, hf], hf⟩
      | ok r =>
        simp only [firstPartFailure, hf] at h
        obtain ⟨hc, ha⟩ := ih e h
        exact ⟨by simp [collectParts, hf, hc], ha⟩
    | file_url url =>
      by_cases hy : youtubeUrlTest url
      · simp only [firstPartFailure, hy, if_pos] at h
        obtain ⟨hc, ha⟩ := ih e h
        refine ⟨?_, ha⟩
        simp [collectParts, hy, hc]
      · cases hf : fF url with
        | error m =>
          simp only [firstPartFailure, hy, if_neg, Bool.false_eq_true,
            not_false_eq_true, hf, Option.some.injEq] at h
          subst h
          refine ⟨by simp [collectParts, hy, hf], hf, ?_⟩
          simpa using hy
        | ok r =>
          simp only [firstPartFailure, hy, if_neg, Bool.false_eq_true,
            not_false_eq_true, hf] at h
          obtain ⟨hc, ha⟩ := ih e h
          exact ⟨by simp [collectParts, hy, hf, hc], ha⟩
    | other =>
      simp only [firstPartFailure] at h
      obtain ⟨hc, ha⟩ := ih e h
      exact ⟨by simp [collectParts, hc], ha⟩

/-- A part list with no failing media part translates successfully. -/
lemma firstPartFailure_none (fI fF : String → Except String FetchOk) :
    ∀ ps : List OpenAIContentPart,
      firstPartFailure fI fF ps = none →
      ∃ mts, collectParts fI fF ps = Except.ok mts := by
  intro ps
  induction ps with
  | nil => intro _; exact ⟨([], []), rfl⟩
  | cons head rest ih =>
    intro h
    cases head with
    | text t =>
      simp only [firstPartFailure] at h
      obtain ⟨mts, hc⟩ := ih h
      exact ⟨(mts.1, mkTextPart t :: mts.2), by simp [collectParts, hc]⟩
    | image_url url =>
      cases hf : fI url with
      | error m => simp [firstPartFailure, hf] at h
      | ok r =>
        simp only [firstPartFailure, hf] at h
        obtain ⟨mts, hc⟩ := ih h
        exact ⟨(mkInlinePart r :: mts.1, mts.2), by simp [collectParts, hf, hc]⟩
    | file_url url =>
      by_cases hy : youtubeUrlTest url
      · simp only [firstPartFailure, hy, if_pos] at h
        obtain ⟨mts, hc⟩ := ih h
        exact ⟨(mkVideoPart url :: mts.1, mts.2), by simp [collectParts, hy, hc]⟩
      · cases hf : fF url with
        | error m =>
          simp [firstPartFailure, hy, hf] at h
        | ok r =>
          simp only [firstPartFailure, hy, if_neg, Bool.false_eq_true,
            not_false_eq_true, hf] at h
          obtain ⟨mts, hc⟩ := ih h
          exact ⟨(mkInlinePart r :: mts.1, mts.2),
            by simp [collectParts, hy, hf, hc]⟩
    | other =>
      simp only [firstPartFailure] at h
      obtain ⟨mts, hc⟩ := ih h
      exact ⟨mts, by simp [collectParts, hc]⟩

/-- C3: if any media part of the conversation fails to fetch, the whole
translation aborts with the first such failure — a single error naming
the failing URL and the underlying fetch message — and produces no
contents list at all (the result is `Except.error`, so no partial
output, in particular no earlier successfully fetched part, survives). -/
theorem translation_failFast :
  ∀ (fetchImage fetchFile : String → Except String FetchOk)
    (msgs : List OpenAIMessage) (e : AbortError),
    firstFailure fetchImage fetchFile msgs = some e →
    geminiContentsOf fetchImage fetchFile msgs = Except.error e ∧
    abortConsistent fetchImage fetchFile e := by
  intro fI fF msgs
  induction msgs with
  | nil => intro e h; simp [firstFailure] at h
  | cons msg rest ih =>
    intro e h
    by_cases hr : msg.role = "system"
    · simp only [firstFailure, hr, if_pos] at h
      obtain ⟨hc, ha⟩ := ih e h
      exact ⟨by simp [geminiContentsOf, hr, hc], ha⟩
    · cases hc : msg.content with
      | inl s =>
        simp only [firstFailure, hr, if_neg, not_false_iff, hc] at h
        obtain ⟨hg, ha⟩ := ih e h
        refine ⟨?_, ha⟩
        simp only [geminiContentsOf, hr, if_neg, not_false_iff,
          translateMessage, hc]
        cases hA : assembleBlock msg.role ([], [mkTextPart s]) with
        | none => simpa [hA] using hg
        | some c => simp [hA, hg]
      | inr l =>
        cases hpf : firstPartFailure fI fF l with
        | some e' =>
          simp only [firstFailure, hr, if_neg, not_false_iff, hc, hpf,
            Option.some.injEq] at h
          subst h
          obtain ⟨hcp, ha⟩ := firstPartFailure_some fI fF l e' hpf
          refine ⟨?_, ha⟩
          simp [geminiContentsOf, hr, translateMessage, hc, hcp]
        | none =>
          simp only [firstFailure, hr, if_neg, not_false_iff, hc, hpf] at h
          obtain ⟨hg, ha⟩ := ih e h
          obtain ⟨mts, hcp⟩ := firstPartFailure_none fI fF l hpf
          refine ⟨?_, ha⟩
          simp only [geminiContentsOf, hr, if_neg, not_false_iff,
            translateMessage, hc, hcp]
          cases hA : assembleBlock msg.role mts with
          | none => simpa [hA] using hg
          | some c => simp [hA, hg]

/-- A fetch oracle with one reachable URL; everything else fails. -/
def fetchFlaky : String → Except String FetchOk :=
  fun u =>
    if u = "http://img.example/ok.png" then
      Except.ok { base64Data := "QUJD", mimeType := "image/png" }
    else Except.error "connection refused"

/-- The spec test input: two image parts, the second unreachable. -/
def twoImageConversation : List OpenAIMessage :=
  [{ role := "user",
     content := Sum.inr [OpenAIContentPart.image_url "http://img.example/ok.png",
       OpenAIContentPart.image_url "http://img.example/unreachable.png"] }]

/-- Witness for C3: the two-image conversation aborts with an error
naming the unreachable URL; the reachable first image is in no output. -/
theorem translation_failFast_witness :
  geminiContentsOf fetchFlaky fetchFlaky twoImageConversation =
    Except.error (AbortError.imageAbort "http://img.example/unreachable.png"
      "connection refused") ∧
  abortConsistent fetchFlaky fetchFlaky
    (AbortError.imageAbort "http://img.example/unreachable.png"
      "connection refused") :=
  translation_failFast fetchFlaky fetchFlaky twoImageConversation
    (AbortError.imageAbort "http://img.example/unreachable.png"
      "connection refused") (by decide)

/-- A URL already in the visited set resolves to itself (cycle case). -/
lemma resolveRedirects_visited (net : String → HttpMethod → NetResult)
    (url : String) (visited : List String) (m : HttpMethod)
    (h : url ∈ visited) :
    resolveRedirects net url visited m = url := by
  rw [resolveRedirects]
  simp [h]

/-- A connection error resolves to the current URL. -/
lemma resolveRedirects_connError (net : String → HttpMethod → NetResult)
    (url : String) (visited : List String) (m : HttpMethod) (msg : String)
    (h1 : url ∉ visited) (h2 : net url m = NetResult.connError msg) :
    resolveRedirects net url visited m = url := by
  rw [resolveRedirects]
  simp [h1, h2]

/-- A timeout resolves to the current URL. -/
lemma resolveRedirects_timeout (net : String → HttpMethod → NetResult)
    (url : String) (visited : List String) (m : HttpMethod)
    (h1 : url ∉ visited) (h2 : net url m = NetResult.timeout) :
    resolveRedirects net url visited m = url := by
  rw [resolveRedirects]
  simp [h1, h2]

/-- A 3xx with a `Location`, within the hop cap, recurses on the
redirect target with the URL added to the visited set. -/
lemma resolveRedirects_redirect (net : String → HttpMethod → NetResult)
    (url : String) (visited : List String) (m : HttpMethod)
    (st : Nat) (loc : String)
    (h1 : url ∉ visited) (h2 : net url m = NetResult.response st (some loc))
    (h3 : 300 ≤ st) (h4 : st < 400) (h5 : (url :: visited).length ≤ 10) :
    resolveRedirects net url visited m =
      resolveRedirects net loc (url :: visited) m := by
  have hcap : ¬ 10 < visited.length + 1 := by
    simp only [List.length_cons] at h5
    omega
  rw [resolveRedirects]
  simp [h1, h2, h3, h4, hcap]

/-- A 3xx past the hop cap resolves to the current URL. -/
lemma resolveRedirects_capExceeded (net : String → HttpMethod → NetResult)
    (url : String) (visited : List String) (m : HttpMethod)
    (st : Nat) (loc : String)
    (h1 : url ∉ visited) (h2 : net url m = NetResult.response st (some loc))
    (h3 : 300 ≤ st) (h4 : st < 400) (h5 : (url :: visited).length > 10) :
    resolveRedirects net url visited m = url := by
  have hcap : 10 < visited.length + 1 := by
    simp only [List.length_cons] at h5
    omega
  rw [resolveRedirects]
  simp [h1, h2, h3, h4, hcap]

/-- A 403/405 answered to a HEAD retries the same URL with GET. -/
lemma resolveRedirects_headDenied (net : String → HttpMethod → NetResult)
    (url : String) (visited : List String) (st : Nat) (loc : Option String)
    (h1 : url ∉ visited)
    (h2 : net url HttpMethod.head = NetResult.response st loc)
    (h3 : st = 405 ∨ st = 403) :
    resolveRedirects net url visited HttpMethod.head =
      resolveRedirects net url visited HttpMethod.get := by
  rw [resolveRedirects]
  have h4 : ¬ (300 ≤ st ∧ st < 400 ∧ loc.isSome = true) := by omega
  have h5 : ¬ (200 ≤ st ∧ st < 300) := by omega
  simp [h1, h2, h4, h5, h3, List.erase_cons_head]

/-- A 403/405 answered to a GET resolves to the current URL. -/
lemma resolveRedirects_getDenied (net : String → HttpMethod → NetResult)
    (url : String) (visited : List String) (st : Nat) (loc : Option String)
    (h1 : url ∉ visited)
    (h2 : net url HttpMethod.get = NetResult.response st loc)
    (h3 : st = 405 ∨ st = 403) :
    resolveRedirects net url visited HttpMethod.get = url := by
  rw [resolveRedirects]
  have h4 : ¬ (300 ≤ st ∧ st < 400 ∧ loc.isSome = true) := by omega
  have h5 : ¬ (200 ≤ st ∧ st < 300) := by omega
  simp [h1, h2, h4, h5, h3]

/-- C8 (amended): redirect resolution is total (never raises), detects
cycles via the visited set, caps followed hops at 10, retries once with
GET when a HEAD is answered 403/405 and gives up on a GET so answered;
in every failure mode — cycle, connection error, timeout, exceeded hop
cap, or access denied — it returns the URL it was currently resolving,
which is the original input URL precisely when no redirect has yet been
followed. -/
theorem resolveRedirects_degrades :
  ∀ (net : String → HttpMethod → NetResult) (url : String)
    (visited : List String) (m : HttpMethod),
    (url ∈ visited → resolveRedirects net url visited m = url) ∧
    (∀ msg, url ∉ visited → net url m = NetResult.connError msg →
      resolveRedirects net url visited m = url) ∧
    (url ∉ visited → net url m = NetResult.timeout →
      resolveRedirects net url visited m = url) ∧
    (∀ st loc, url ∉ visited → net url m = NetResult.response st (some loc) →
      300 ≤ st → st < 400 → (url :: visited).length > 10 →
      resolveRedirects net url visited m = url) ∧
    (∀ st loc, url ∉ visited →
      net url HttpMethod.head = NetResult.response st loc →
      (st = 405 ∨ st = 403) →
      resolveRedirects net url visited HttpMethod.head =
        resolveRedirects net url visited HttpMethod.get) ∧
    (∀ st loc, url ∉ visited →
      net url HttpMethod.get = NetResult.response st loc →
      (st = 405 ∨ st = 403) →
      resolveRedirects net url visited HttpMethod.get = url) := by
  intro net url visited m
  refine ⟨?_, ?_, ?_, ?_, ?_, ?_⟩
  · exact resolveRedirects_visited net url visited m
  · intro msg h1 h2
    exact resolveRedirects_connError net url visited m msg h1 h2
  · intro h1 h2
    exact resolveRedirects_timeout net url visited m h1 h2
  · intro st loc h1 h2 h3 h4 h5
    exact resolveRedirects_capExceeded net url visited m st loc h1 h2 h3 h4 h5
  · intro st loc h1 h2 h3
    exact resolveRedirects_headDenied net url visited st loc h1 h2 h3
  · intro st loc h1 h2 h3
    exact resolveRedirects_getDenied net url visited st loc h1 h2 h3

/-- A network where the first URL answers with a redirect and every
other URL refuses the connection. -/
def netRedirectThenError : String → HttpMethod → NetResult :=
  fun u _ =>
    if u = "http://a.example/" then
      NetResult.response 302 (some "http://b.example/")
    else NetResult.connError "connection refused"

/-- Counterexample to C8 as stated: after one followed redirect
(`http://a.example/` → `http://b.example/`) the connection errors, and
the function returns the redirect target `http://b.example/`, not the
original URL `http://a.example/`. -/
theorem resolveRedirects_not_original :
  resolveRedirects netRedirectThenError "http://a.example/" [] HttpMethod.head =
    "http://b.example/" ∧
  (("http://b.example/" : String) == "http://a.example/") = false := by
  constructor
  · rw [resolveRedirects_redirect netRedirectThenError "http://a.example/" []
      HttpMethod.head 302 "http://b.example/" (by decide) rfl (by omega)
      (by omega) (by decide)]
    exact resolveRedirects_connError netRedirectThenError "http://b.example/"
      ["http://a.example/"] HttpMethod.head "connection refused" (by decide) rfl
  · decide

/-- A network where every request errors. -/
def netDown : String → HttpMethod → NetResult :=
  fun _ _ => NetResult.connError "ECONNREFUSED"

/-- Witness for C8 (amended): a connection error on the very first
request returns the original URL. -/
theorem resolveRedirects_degrades_witness :
  resolveRedirects netDown "http://a.example/" [] HttpMethod.head =
    "http://a.example/" :=
  (resolveRedirects_degrades netDown "http://a.example/" []
    HttpMethod.head).2.1 "ECONNREFUSED" (by decide) rfl
